import Mathlib

/-!
Verification of the ping-sweep program (`src/ping_sweepv2.py`).

The embedding translates the program's functions into Lean:

* `get_ping_command` and `ping_once` are translated directly, with the
  operating-system name and the behaviour of `subprocess.run` passed in as
  explicit parameters (they are the program's only interaction with the
  outside world in those functions).
* `ip_network` embeds `ipaddress.ip_network(s, strict=False)` for the IPv4
  family, following CPython's `ipaddress` module: dotted-quad address (each
  octet one to three ASCII digits, no leading zero, value at most 255),
  an optional `/p` with `p` a decimal prefix length at most 32, and host
  bits masked off because `strict=False`.
* `hostsList` embeds `IPv4Network.hosts()` from CPython's `ipaddress`
  module: the single address for a /32, both addresses for a /31, and the
  addresses strictly between network and broadcast address otherwise.
* `sweep_network` embeds the scheduler loop.  A probe's visible behaviour at
  `fut.result()` is a `ProbeResult` (a returned boolean, the `RuntimeError`
  raised by `ping_once` on a missing binary, or any other exception); the
  order in which `concurrent.futures.as_completed` yields the futures is an
  arbitrary reordering function `completion`, constrained to a permutation
  in the theorems.  The `threads` and `quiet` parameters do not influence
  the returned value (they control timing and logging only) and are kept as
  unused parameters.
* `PoolStep` embeds the semantics of
  `concurrent.futures.ThreadPoolExecutor(max_workers=threads)`: the pool
  has `threads` worker threads, each running at most one submitted task at
  a time, so a task can start only while fewer than `threads` tasks run.
-/

namespace PingSweep

/-- Splitting a character list at every occurrence of a separator character;
models Python `str.split(sep)` for a one-character separator (in particular
the empty string splits to `[[]]`, matching `"".split(sep) == ['']`). -/
def splitChar (sep : Char) : List Char → List (List Char)
  | [] => [[]]
  | c :: cs =>
    if c = sep then [] :: splitChar sep cs
    else
      match splitChar sep cs with
      | [] => [[c]]
      | g :: gs => (c :: g) :: gs

/-- Digit-string value, as Python `int(s)` computes it for a digit string. -/
def digitsToNat (cs : List Char) : Nat :=
  cs.foldl (fun a c => a * 10 + (c.toNat - 48)) 0

/-- CPython `ipaddress._parse_octet`: one to three ASCII digits, no leading
zero (except the octet `0` itself), value at most 255. -/
def parseOctet (cs : List Char) : Option Nat :=
  if cs = [] then none
  else if ¬ cs.all (fun c => c.isDigit) then none
  else if cs.length > 3 then none
  else if cs.length > 1 ∧ cs.head? = some ('0') then none
  else
    let v := digitsToNat cs
    if v ≤ 255 then some v else none

/-- CPython `IPv4Address._ip_int_from_string`: exactly four octets joined by
dots, packed big-endian. -/
def parseIPv4 (cs : List Char) : Option Nat :=
  match (splitChar ('.') cs).map parseOctet with
  | [some a, some b, some c, some d] =>
    some (((a * 256 + b) * 256 + c) * 256 + d)
  | _ => none

/-- CPython `_prefix_from_prefix_string`: a nonempty ASCII-digit string whose
value is at most the address width, 32. -/
def parsePrefixLen (cs : List Char) : Option Nat :=
  if cs = [] then none
  else if ¬ cs.all (fun c => c.isDigit) then none
  else
    let v := digitsToNat cs
    if v ≤ 32 then some v else none

/-- An IPv4 network: the (masked) network address as an integer, and the
prefix length, as CPython's `IPv4Network` holds them. -/
structure IPv4Network where
  networkAddress : Nat
  prefixlen : Nat
deriving DecidableEq

/-- Embedding of `ipaddress.ip_network(s, strict=False)` at line 58, for the
IPv4 family: at most one slash, a dotted-quad address, an optional decimal
prefix length (32 when absent), host bits masked off (`strict=False`).
Returns `none` where CPython raises `ValueError`. -/
def ip_network (s : String) : Option IPv4Network :=
  match splitChar ('/') s.toList with
  | [addr] =>
    (parseIPv4 addr).map (fun a => { networkAddress := a, prefixlen := 32 })
  | [addr, p] => do
    let a ← parseIPv4 addr
    let pl ← parsePrefixLen p
    pure { networkAddress := a / 2 ^ (32 - pl) * 2 ^ (32 - pl), prefixlen := pl }
  | _ => none

/-- The broadcast address of a network: the last address of the block. -/
def broadcastAddress (net : IPv4Network) : Nat :=
  net.networkAddress + 2 ^ (32 - net.prefixlen) - 1

/-- Embedding of CPython `IPv4Network.hosts()` (used at line 59): the single
address for a /32, both addresses for a /31, and otherwise
`range(network + 1, broadcast)` — every address strictly between network and
broadcast address, ascending. -/
def hostsList (net : IPv4Network) : List Nat :=
  if net.prefixlen = 32 then [net.networkAddress]
  else if net.prefixlen = 31 then [net.networkAddress, broadcastAddress net]
  else
    (List.range (broadcastAddress net - (net.networkAddress + 1))).map
      (fun i => net.networkAddress + 1 + i)

/-- Python `str(ip)` for an `IPv4Address`: the dotted-quad form. -/
def ipv4ToString (n : Nat) : String :=
  toString (n / 16777216 % 256) ++ "." ++ toString (n / 65536 % 256) ++ "."
    ++ toString (n / 256 % 256) ++ "." ++ toString (n % 256)

/-- Embedding of `get_ping_command` (lines 21-32).  `platform.system()` is the
explicit `system` parameter; a Python `int` is embedded as `Int`, and Python's
floor division `//` is `Int.fdiv`. -/
def get_ping_command (system ip : String) (timeout_ms : Int) : List String :=
  if system = "Windows" then
    ["ping", "-n", "1", "-w", toString timeout_ms, ip]
  else
    let secs := max 1 ((timeout_ms + 999).fdiv 1000)
    ["ping", "-c", "1", "-W", toString secs, ip]

/-- What `subprocess.run` does for `ping_once`: the process completes with a
return code, or raising `FileNotFoundError` because the binary is absent. -/
inductive SubprocessOutcome where
  | completed (returncode : Int)
  | fileNotFound
deriving DecidableEq

/-- Embedding of `ping_once` (lines 35-51): run the command, report
`returncode == 0`, and turn `FileNotFoundError` into the `RuntimeError`
carrying this message. -/
def ping_once (run : List String → SubprocessOutcome) (system ip : String)
    (timeout_ms : Int) : Except String Bool :=
  match run (get_ping_command system ip timeout_ms) with
  | SubprocessOutcome.completed rc => Except.ok (rc == 0)
  | SubprocessOutcome.fileNotFound =>
    Except.error "'ping' command not found on this system"

/-- What `fut.result()` does for one submitted probe: return a boolean, raise
the `RuntimeError` that `ping_once` turns a missing binary into (the spec's
`TransportError`), or raise some other exception. -/
inductive ProbeResult where
  | value (up : Bool)
  | transportError
  | otherError
deriving DecidableEq

/-- The `try/except Exception` at lines 78-82: a returned boolean is kept and
every exception — the `TransportError` included — becomes `up = False`. -/
def futResult : ProbeResult → Bool
  | ProbeResult.value up => up
  | ProbeResult.transportError => false
  | ProbeResult.otherError => false

/-- The errors `sweep_network` itself raises: the `ValueError` from
`ipaddress.ip_network` on a malformed CIDR string (the spec's
`InvalidRangeError`). -/
inductive SweepError where
  | invalidRange
deriving DecidableEq

/-- Embedding of `sweep_network` (lines 54-89).  `probe` gives each future's
behaviour at `fut.result()`; `completion` is the order in which
`as_completed` yields the futures (a permutation of the submitted hosts —
hypothesised in the theorems); `threads` and `quiet` affect timing and
logging only and are unused.  `results.append((ip, up))` at line 84 runs in
completion order. -/
def sweep_network (probe : String → Int → ProbeResult)
    (completion : List String → List String) (network_cidr : String)
    (threads : Nat) (timeout_ms : Int) (quiet : Bool) :
    Except SweepError (List (String × Bool)) :=
  match ip_network network_cidr with
  | none => Except.error SweepError.invalidRange
  | some net =>
    let hosts := (hostsList net).map ipv4ToString
    Except.ok ((completion hosts).map
      (fun ip => (ip, futResult (probe ip timeout_ms))))

/-- The hosts handed to `executor.submit` (lines 70-73): one per element of
`hosts`, and none at all when `ip_network` raises at line 58 before the
executor block is entered. -/
def submittedHosts (network_cidr : String) : List String :=
  match ip_network network_cidr with
  | none => []
  | some net => (hostsList net).map ipv4ToString

/-- A state of the `ThreadPoolExecutor` during the sweep: the hosts whose
probe has not started, the probes in flight, and the finished hosts. -/
structure PoolState where
  pending : List String
  running : List String
  finished : List String
deriving DecidableEq

/-- Semantics of `ThreadPoolExecutor(max_workers=threads)` (line 69): the
pool has `threads` worker threads, each executing at most one submitted task
at a time, so a pending task starts only while fewer than `threads` tasks
run; a running task may finish at any moment. -/
inductive PoolStep (threads : Nat) : PoolState → PoolState → Prop where
  | start (ip : String) (rest fl fin : List String) :
      fl.length < threads →
      PoolStep threads ⟨ip :: rest, fl, fin⟩ ⟨rest, ip :: fl, fin⟩
  | finish (ip : String) (pend fl fin : List String) :
      ip ∈ fl →
      PoolStep threads ⟨pend, fl, fin⟩ ⟨pend, fl.erase ip, ip :: fin⟩

/-- The pool states a sweep over `hosts` can reach: every probe pending,
none started, under any interleaving of the steps. -/
def PoolReachable (threads : Nat) (hosts : List String) (s : PoolState) :
    Prop :=
  Relation.ReflTransGen (PoolStep threads) ⟨hosts, [], []⟩ s

/-- Ceiling of `t / 1000` on integers, written with floor division. -/
def ceilDivThousand (t : Int) : Int := -((-t).fdiv 1000)

/-- Helper: the first components of the per-host result pairs are the hosts
themselves, in the same order. -/
theorem map_fst_pair (f : String → Bool) (l : List String) :
    (l.map (fun ip => (ip, f ip))).map Prod.fst = l := by
  induction l with
  | nil => rfl
  | cons a t ih => simp [ih]

/-- C4: for every valid multi-host CIDR range (prefix length at most 31, so
the block holds at least two addresses), `hosts()` produces the usable host
addresses in strictly ascending numeric order, and where network and
broadcast addresses are well-defined (prefix length at most 30) both are
excluded. -/
theorem hosts_ascending_excluding_network_broadcast (net : IPv4Network)
    (hmulti : net.prefixlen ≤ 31) :
    List.Sorted (· < ·) (hostsList net) ∧
      (net.prefixlen ≤ 30 →
        net.networkAddress ∉ hostsList net ∧
          broadcastAddress net ∉ hostsList net) := by
  rcases Nat.lt_or_ge net.prefixlen 31 with h30 | h31
  · have h32 : ¬ net.prefixlen = 32 := by omega
    have h31n : ¬ net.prefixlen = 31 := by omega
    have hpow : 4 ≤ 2 ^ (32 - net.prefixlen) := by
      calc (4 : Nat) = 2 ^ 2 := by norm_num
        _ ≤ 2 ^ (32 - net.prefixlen) :=
          Nat.pow_le_pow_right (by norm_num) (by omega)
    constructor
    · simp only [hostsList, if_neg h32, if_neg h31n]
      exact List.pairwise_map.mpr
        ((List.pairwise_lt_range _).imp (fun h => by omega))
    · intro _
      simp only [hostsList, broadcastAddress, if_neg h32, if_neg h31n,
        List.mem_map, List.mem_range]
      generalize 2 ^ (32 - net.prefixlen) = B at hpow ⊢
      constructor
      · rintro ⟨i, hi, he⟩
        omega
      · rintro ⟨i, hi, he⟩
        omega
  · have hp : net.prefixlen = 31 := by omega
    have h32 : ¬ net.prefixlen = 32 := by omega
    constructor
    · simp only [hostsList, broadcastAddress, if_neg h32, if_pos hp, hp]
      norm_num
    · intro hle
      exact absurd hle (by omega)

/-- C10: a single-host range (an IPv4 /32) expands to exactly the one given
address, and the sweep then probes that address and returns a one-entry
result. -/
theorem single_host_range_one_entry (s : String) (net : IPv4Network)
    (probe : String → Int → ProbeResult)
    (completion : List String → List String) (threads : Nat)
    (timeout_ms : Int) (quiet : Bool)
    (hparse : ip_network s = some net) (h32 : net.prefixlen = 32)
    (hperm : (completion ((hostsList net).map ipv4ToString)).Perm
      ((hostsList net).map ipv4ToString)) :
    hostsList net = [net.networkAddress] ∧
      sweep_network probe completion s threads timeout_ms quiet
        = Except.ok [(ipv4ToString net.networkAddress,
            futResult (probe (ipv4ToString net.networkAddress) timeout_ms))] := by
  have hh : hostsList net = [net.networkAddress] := by
    simp [hostsList, h32]
  refine ⟨hh, ?_⟩
  rw [hh] at hperm
  simp only [List.map_cons, List.map_nil] at hperm
  have hc := List.perm_singleton.mp hperm
  simp only [sweep_network, hparse, hh, List.map_cons, List.map_nil, hc,
    List.map_cons]

/-- C5: for every malformed CIDR string the sweep fails with the
invalid-range error (the `ValueError` from `ipaddress.ip_network` at line
58), whatever the prober does, and no host is ever submitted to the
executor — probing has not begun. -/
theorem invalid_cidr_fatal_before_probing (s : String)
    (probe : String → Int → ProbeResult)
    (completion : List String → List String) (threads : Nat)
    (timeout_ms : Int) (quiet : Bool) (hbad : ip_network s = none) :
    sweep_network probe completion s threads timeout_ms quiet
        = Except.error SweepError.invalidRange ∧
      submittedHosts s = [] := by
  constructor
  · simp only [sweep_network, hbad]
  · simp only [submittedHosts, hbad]

/-- C5 witness: the spec's example input `"not-a-network"`. -/
theorem invalid_cidr_fatal_before_probing_witness :
    sweep_network (fun _ _ => ProbeResult.value true) id "not-a-network" 32
        300 false = Except.error SweepError.invalidRange ∧
      submittedHosts "not-a-network" = [] :=
  invalid_cidr_fatal_before_probing "not-a-network"
    (fun _ _ => ProbeResult.value true) id 32 300 false (by decide)

/-- C4 witness: the spec's example range `192.168.1.0/30`. -/
theorem hosts_ascending_excluding_network_broadcast_witness :
    List.Sorted (· < ·) (hostsList ⟨3232235776, 30⟩) ∧
      ((⟨3232235776, 30⟩ : IPv4Network).prefixlen ≤ 30 →
        (⟨3232235776, 30⟩ : IPv4Network).networkAddress
            ∉ hostsList ⟨3232235776, 30⟩ ∧
          broadcastAddress ⟨3232235776, 30⟩ ∉ hostsList ⟨3232235776, 30⟩) :=
  hosts_ascending_excluding_network_broadcast ⟨3232235776, 30⟩ (by decide)

/-- C10 witness: the range `10.0.0.5/32` with a prober that reports every
host up, in submission order. -/
theorem single_host_range_one_entry_witness :
    hostsList ⟨167772165, 32⟩ = [(⟨167772165, 32⟩ : IPv4Network).networkAddress] ∧
      sweep_network (fun _ _ => ProbeResult.value true) id "10.0.0.5/32" 32
          300 false
        = Except.ok [(ipv4ToString (⟨167772165, 32⟩ : IPv4Network).networkAddress,
            futResult ((fun _ _ => ProbeResult.value true)
              (ipv4ToString (⟨167772165, 32⟩ : IPv4Network).networkAddress)
              (300 : Int)))] :=
  single_host_range_one_entry "10.0.0.5/32" ⟨167772165, 32⟩
    (fun _ _ => ProbeResult.value true) id 32 300 false (by decide) rfl
    (List.Perm.refl _)

/-- C3: after a successful parse, the sweep returns one (host, outcome) entry
per host of the expansion — the result's length equals the expansion's
length and its hosts are exactly the expanded hosts, none dropped, none
duplicated — for every completion order that is a permutation of the
submitted hosts. -/
theorem sweep_one_entry_per_host (s : String) (net : IPv4Network)
    (probe : String → Int → ProbeResult)
    (completion : List String → List String) (threads : Nat)
    (timeout_ms : Int) (quiet : Bool)
    (hparse : ip_network s = some net)
    (hperm : (completion ((hostsList net).map ipv4ToString)).Perm
      ((hostsList net).map ipv4ToString)) :
    ∃ l, sweep_network probe completion s threads timeout_ms quiet
          = Except.ok l ∧
        l.length = ((hostsList net).map ipv4ToString).length ∧
        (l.map Prod.fst).Perm ((hostsList net).map ipv4ToString) := by
  simp only [sweep_network, hparse]
  refine ⟨_, rfl, ?_, ?_⟩
  · simpa using hperm.length_eq
  · rw [map_fst_pair]
    exact hperm

/-- C3 witness: the range `192.168.1.0/30` with the probes completing in
reverse submission order. -/
theorem sweep_one_entry_per_host_witness :
    ∃ l, sweep_network (fun _ _ => ProbeResult.value true) List.reverse
          "192.168.1.0/30" 32 300 false = Except.ok l ∧
        l.length = ((hostsList ⟨3232235776, 30⟩).map ipv4ToString).length ∧
        (l.map Prod.fst).Perm ((hostsList ⟨3232235776, 30⟩).map ipv4ToString) :=
  sweep_one_entry_per_host "192.168.1.0/30" ⟨3232235776, 30⟩
    (fun _ _ => ProbeResult.value true) List.reverse 32 300 false (by decide)
    (List.reverse_perm _)

/-- C2 counterexample: for the range `192.168.1.0/30` with every host up and
the probes completing in reverse order — a legitimate completion order, a
permutation of the submitted hosts — the sweep returns
`[192.168.1.2, 192.168.1.1]`, not the original ascending range order
`[192.168.1.1, 192.168.1.2]`: the returned ordering depends on completion
timing. -/
theorem completion_order_changes_result :
    (List.reverse ((hostsList ⟨3232235776, 30⟩).map ipv4ToString)).Perm
        ((hostsList ⟨3232235776, 30⟩).map ipv4ToString) ∧
      sweep_network (fun _ _ => ProbeResult.value true) List.reverse
          "192.168.1.0/30" 32 300 false
        = Except.ok [("192.168.1.2", true), ("192.168.1.1", true)] ∧
      ([("192.168.1.2", true), ("192.168.1.1", true)]
          : List (String × Bool))
        ≠ ((hostsList ⟨3232235776, 30⟩).map ipv4ToString).map
            (fun ip => (ip, true)) :=
  ⟨List.reverse_perm _, rfl, by decide⟩

/-- C2 amended: the sweep lists its (host, outcome) pairs in probe completion
order — the order `as_completed` yields the futures — not re-sorted into the
original range order, so the sequence ordering follows completion timing. -/
theorem result_in_completion_order (s : String) (net : IPv4Network)
    (probe : String → Int → ProbeResult)
    (completion : List String → List String) (threads : Nat)
    (timeout_ms : Int) (quiet : Bool) (l : List (String × Bool))
    (hparse : ip_network s = some net)
    (hok : sweep_network probe completion s threads timeout_ms quiet
      = Except.ok l) :
    l.map Prod.fst = completion ((hostsList net).map ipv4ToString) := by
  simp only [sweep_network, hparse] at hok
  have hl := Except.ok.inj hok
  rw [← hl, map_fst_pair]

/-- C2 amended witness: the reverse completion order on `192.168.1.0/30`. -/
theorem result_in_completion_order_witness :
    ([("192.168.1.2", true), ("192.168.1.1", true)]
        : List (String × Bool)).map Prod.fst
      = List.reverse ((hostsList ⟨3232235776, 30⟩).map ipv4ToString) :=
  result_in_completion_order "192.168.1.0/30" ⟨3232235776, 30⟩
    (fun _ _ => ProbeResult.value true) List.reverse 32 300 false
    [("192.168.1.2", true), ("192.168.1.1", true)] (by decide) rfl

/-- C6: a per-probe exception other than the `TransportError` — modelled as
`ProbeResult.otherError` — is caught at the probe-dispatch boundary (lines
78-82): that host's outcome is recorded as down (`False`) and the sweep
continues, still returning one entry per submitted host. -/
theorem per_probe_exception_recorded_down (s : String) (net : IPv4Network)
    (probe : String → Int → ProbeResult)
    (completion : List String → List String) (threads : Nat)
    (timeout_ms : Int) (quiet : Bool) (ip : String)
    (hparse : ip_network s = some net)
    (hperm : (completion ((hostsList net).map ipv4ToString)).Perm
      ((hostsList net).map ipv4ToString))
    (hip : ip ∈ (hostsList net).map ipv4ToString)
    (hexc : probe ip timeout_ms = ProbeResult.otherError) :
    ∃ l, sweep_network probe completion s threads timeout_ms quiet
          = Except.ok l ∧
        (ip, false) ∈ l ∧
        l.length = ((hostsList net).map ipv4ToString).length := by
  simp only [sweep_network, hparse]
  refine ⟨_, rfl, ?_, ?_⟩
  · exact List.mem_map.mpr
      ⟨ip, hperm.mem_iff.mpr hip, by rw [hexc]; rfl⟩
  · simpa using hperm.length_eq

/-- C6 witness: a prober whose first probe of `192.168.1.1` raises an
unexpected exception; the host is recorded down and both hosts stay in the
result. -/
theorem per_probe_exception_recorded_down_witness :
    ∃ l, sweep_network
          (fun ip _ => if ip = "192.168.1.1" then ProbeResult.otherError
            else ProbeResult.value true) id "192.168.1.0/30" 32 300 false
          = Except.ok l ∧
        ("192.168.1.1", false) ∈ l ∧
        l.length = ((hostsList ⟨3232235776, 30⟩).map ipv4ToString).length :=
  per_probe_exception_recorded_down "192.168.1.0/30" ⟨3232235776, 30⟩
    (fun ip _ => if ip = "192.168.1.1" then ProbeResult.otherError
      else ProbeResult.value true) id 32 300 false "192.168.1.1" (by decide)
    (List.Perm.refl _) (by decide) (by decide)

/-- C1: evaluation at the failing input.  With the ping binary absent,
`ping_once` raises the `RuntimeError` — the spec's `TransportError` — yet
the sweep of `192.168.1.0/30` catches it like any exception (lines 78-82),
records both hosts as down and returns a normal result instead of aborting:
the error never reaches the `except RuntimeError` handler in `main`, so the
process prints a summary and exits with status 0. -/
theorem transportError_swallowed_not_fatal :
    ping_once (fun _ => SubprocessOutcome.fileNotFound) "Linux" "192.168.1.1"
        300 = Except.error "'ping' command not found on this system" ∧
      sweep_network (fun _ _ => ProbeResult.transportError) id
          "192.168.1.0/30" 32 300 false
        = Except.ok [("192.168.1.1", false), ("192.168.1.2", false)] :=
  ⟨rfl, rfl⟩

/-- C7: in every state the thread pool can reach during a sweep, at most
`threads` probes are in flight: an instrumented prober counting simultaneous
in-flight calls never observes a count above the configured limit. -/
theorem concurrency_cap_respected (threads : Nat) (hosts : List String)
    (s : PoolState) (h : PoolReachable threads hosts s) :
    s.running.length ≤ threads := by
  induction h with
  | refl => simp
  | tail _ hstep ih =>
    cases hstep with
    | start ip rest fl fin hlt =>
      simpa using hlt
    | finish ip pend fl fin hmem =>
      exact le_trans (List.Sublist.length_le (List.erase_sublist ip fl)) ih

/-- C7 witness: with one worker and two hosts, the state after starting the
first probe is reachable and respects the cap. -/
theorem concurrency_cap_respected_witness :
    (PoolState.mk ["192.168.1.2"] ["192.168.1.1"] []).running.length ≤ 1 :=
  concurrency_cap_respected 1 ["192.168.1.1", "192.168.1.2"]
    ⟨["192.168.1.2"], ["192.168.1.1"], []⟩
    (Relation.ReflTransGen.single
      (PoolStep.start "192.168.1.1" ["192.168.1.2"] [] [] (by decide)))

/-- C9: on a non-Windows system the timeout handed to the ping command is
`max 1 ⌈timeout_ms / 1000⌉` seconds (`ceilDivThousand` is that ceiling:
the two inequalities pin it between `(c-1)*1000` exclusive and `c*1000`
inclusive); a requested timeout of 1 to 999 milliseconds is enlarged to one
full second, and for positive requests the effective timeout exceeds the
request by at most 999 milliseconds. -/
theorem unix_timeout_argument_ceiling (system ip : String) (timeout_ms : Int)
    (hnw : system ≠ "Windows") :
    get_ping_command system ip timeout_ms
        = ["ping", "-c", "1", "-W",
            toString (max 1 (ceilDivThousand timeout_ms)), ip] ∧
      1000 * (ceilDivThousand timeout_ms - 1) < timeout_ms ∧
      timeout_ms ≤ 1000 * ceilDivThousand timeout_ms ∧
      (1 ≤ timeout_ms → timeout_ms ≤ 999 →
        max 1 (ceilDivThousand timeout_ms) = 1) ∧
      (1 ≤ timeout_ms →
        1000 * max 1 (ceilDivThousand timeout_ms) - timeout_ms ≤ 999) := by
  have hc : ceilDivThousand timeout_ms = -(-timeout_ms / 1000) := by
    unfold ceilDivThousand
    rw [Int.fdiv_eq_ediv _ (by norm_num)]
  have key : (timeout_ms + 999).fdiv 1000 = ceilDivThousand timeout_ms := by
    rw [hc, Int.fdiv_eq_ediv _ (by norm_num)]
    omega
  refine ⟨?_, ?_, ?_, ?_, ?_⟩
  · simp only [get_ping_command, if_neg hnw, key]
  · rw [hc]; omega
  · rw [hc]; omega
  · rw [hc]; omega
  · rw [hc]; omega

/-- C9 witness: a Linux system asking for 300 milliseconds. -/
theorem unix_timeout_argument_ceiling_witness :
    get_ping_command "Linux" "10.0.0.1" 300
        = ["ping", "-c", "1", "-W",
            toString (max 1 (ceilDivThousand 300)), "10.0.0.1"] ∧
      1000 * (ceilDivThousand 300 - 1) < 300 ∧
      (300 : Int) ≤ 1000 * ceilDivThousand 300 ∧
      ((1 : Int) ≤ 300 → (300 : Int) ≤ 999 →
        max 1 (ceilDivThousand 300) = 1) ∧
      ((1 : Int) ≤ 300 →
        1000 * max 1 (ceilDivThousand 300) - 300 ≤ 999) :=
  unix_timeout_argument_ceiling "Linux" "10.0.0.1" 300 (by decide)

end PingSweep
